import Mathlib

/-!
Shallow embedding of the cart/checkout consistency model of the ShopEasy
storefront (CartPage.tsx, ProductDetailPage.tsx, CheckoutPage.tsx, App.tsx).
Records are Lean structures, the remote store is an explicit `DB` value,
monetary values are exact rationals, and JavaScript's
`parseFloat(x.toFixed(2))` on non-negative amounts is modelled by `round2`
(round to the nearest multiple of 1/100, halves up).  Fallible store calls
are driven by explicit failure oracles, mirroring the `try`/`catch`
structure of the source.
-/

namespace ShopEasy

/-- Product record (`products` collection). -/
structure Product where
  id : String
  name : String
  description : String
  price : ℚ
  imageUrl : String
  category : String
  stockQuantity : ℕ
deriving DecidableEq

/-- Cart line item record (`cartItems` collection). -/
structure CartItem where
  id : String
  userId : String
  productId : String
  quantity : ℤ
deriving DecidableEq

/-- A cart item joined with its product, as held in component state
(`CartItem` with the optional `product` field in the TSX interfaces). -/
structure HydItem where
  id : String
  userId : String
  productId : String
  quantity : ℤ
  product : Option Product
deriving DecidableEq

/-- Order record (`orders` collection). -/
structure OrderRec where
  id : String
  userId : String
  totalAmount : ℚ
  status : String
  shippingAddress : String
deriving DecidableEq

/-- Order item record (`orderItems` collection). -/
structure OrderItemRec where
  id : String
  orderId : String
  productId : String
  quantity : ℤ
  price : ℚ
deriving DecidableEq

/-- The remote store: the four record collections, in store order. -/
structure DB where
  products : List Product
  cartItems : List CartItem
  orders : List OrderRec
  orderItems : List OrderItemRec
deriving DecidableEq

/-- `parseFloat(q.toFixed(2))` for the non-negative decimals of this model:
round to the nearest cent, halves rounding up. -/
def round2 (q : ℚ) : ℚ := ((⌊q * 100 + 1/2⌋ : ℤ) : ℚ) / 100

/-- JavaScript's `String.prototype.trim`: strip leading and trailing
whitespace. -/
def trimStr (s : String) : String :=
  ⟨((s.data.dropWhile Char.isWhitespace).reverse.dropWhile Char.isWhitespace).reverse⟩

/-- `item.product?.price || 0`. -/
def priceOf (i : HydItem) : ℚ :=
  match i.product with
  | some p => p.price
  | none => 0

/-- `cartItems.reduce((total, item) => total + (item.product?.price || 0) * Number(item.quantity), 0)`
(identical in CartPage.tsx and CheckoutPage.tsx). -/
def calculateTotal (items : List HydItem) : ℚ :=
  items.foldl (fun total i => total + priceOf i * (i.quantity : ℚ)) 0

/-- `cartItems.reduce((total, item) => total + Number(item.quantity), 0)`. -/
def getTotalItems (items : List HydItem) : ℤ :=
  items.foldl (fun total i => total + i.quantity) 0

/-- `blink.db.cartItems.list({ where: { userId } })`. -/
def listWhereUser (db : DB) (u : String) : List CartItem :=
  db.cartItems.filter (fun i => i.userId == u)

/-- `blink.db.products.list({ where: { id: pid } })[0] || null`. -/
def productById (db : DB) (pid : String) : Option Product :=
  (db.products.filter (fun p => p.id == pid)).head?

/-- `{ ...item, product: products[0] || null }`. -/
def hydrateItem (db : DB) (c : CartItem) : HydItem :=
  { id := c.id, userId := c.userId, productId := c.productId,
    quantity := c.quantity, product := productById db c.productId }

/-- Error kind surfaced by the aggregation read path
(the `catch` branch of `loadCartItems`). -/
inductive AggError | StoreUnavailable
deriving DecidableEq

/-- Which store calls of one aggregation run fail: the initial
`cartItems.list` call, and each per-item `products.list` call
(keyed by the cart item id driving the call). -/
structure AggOracle where
  initialFetchFails : Bool
  productLookupFails : String → Bool

/-- Cart Aggregator, `loadCartItems` in CartPage.tsx / CheckoutPage.tsx:
fetch the user's line items, hydrate each with its product
(`Promise.all` over per-item lookups), and keep the entries whose product
exists.  A failing initial fetch throws; a failing per-item lookup rejects
the `Promise.all`, landing in the same `catch`.  Aggregation only issues
`list` calls, so the store is returned unchanged. -/
def loadCartItems (db : DB) (oracle : AggOracle) (u : String) :
    Except AggError (List HydItem) × DB :=
  if oracle.initialFetchFails then (.error .StoreUnavailable, db)
  else
    let items := listWhereUser db u
    if items.any (fun i => oracle.productLookupFails i.id) then
      (.error .StoreUnavailable, db)
    else
      (.ok ((items.map (hydrateItem db)).filter (fun i => i.product.isSome)), db)

/-- Header badge count, `loadCartItemCount` in App.tsx: sum of quantities
over the raw `cartItems.list({ where: { userId } })` result, with no
product hydration. -/
def loadCartItemCount (db : DB) (u : String) : ℤ :=
  (listWhereUser db u).foldl (fun sum i => sum + i.quantity) 0

/-- `addToCart` in ProductDetailPage.tsx: list the items for
`(userId, productId)`; if one exists, update it in place with the summed
quantity; otherwise create a new line item with the generated id. -/
def addToCart (db : DB) (freshId u p : String) (q : ℤ) : DB :=
  match (db.cartItems.filter (fun i => i.userId == u && i.productId == p)).head? with
  | some existing =>
      { db with cartItems :=
          db.cartItems.map (fun i =>
            if i.id == existing.id then { i with quantity := existing.quantity + q } else i) }
  | none =>
      { db with cartItems :=
          db.cartItems ++ [{ id := freshId, userId := u, productId := p, quantity := q }] }

/-- `updateQuantity` in CartPage.tsx: a no-op when `newQuantity < 1`;
otherwise update the store record and then mirror the change into the
local `cartItems` component state. -/
def updateQuantity (db : DB) (localCart : List HydItem) (itemId : String)
    (newQuantity : ℤ) : DB × List HydItem :=
  if newQuantity < 1 then (db, localCart)
  else
    ({ db with cartItems :=
        db.cartItems.map (fun i =>
          if i.id == itemId then { i with quantity := newQuantity } else i) },
     localCart.map (fun i =>
        if i.id == itemId then { i with quantity := newQuantity } else i))

/-- Result reported by `handleCheckout` to the user: the success toast,
the missing-address early return, or the `catch` branch's failure toast. -/
inductive CheckoutResult | success | missingAddress | checkoutFailed
deriving DecidableEq

/-- One store write issued by `handleCheckout`, in program order. -/
inductive Event
  | createOrder (o : OrderRec)
  | createOrderItem (oi : OrderItemRec)
  | deleteCartItem (id : String)
deriving DecidableEq

/-- Effect of a single store write:
`create` appends, `delete` removes the record with the given id. -/
def applyEvent (db : DB) : Event → DB
  | .createOrder o => { db with orders := db.orders ++ [o] }
  | .createOrderItem oi => { db with orderItems := db.orderItems ++ [oi] }
  | .deleteCartItem i => { db with cartItems := db.cartItems.filter (fun c => c.id != i) }

/-- Apply a sequence of store writes in order. -/
def applyEvents (db : DB) (es : List Event) : DB := es.foldl applyEvent db

/-- The Order record built by `handleCheckout`:
`totalAmount: parseFloat(total.toFixed(2))`, `status: 'pending'`,
trimmed shipping address. -/
def checkoutOrder (u orderId address : String) (items : List HydItem) : OrderRec :=
  { id := orderId, userId := u,
    totalAmount := round2 (calculateTotal items),
    status := "pending",
    shippingAddress := trimStr address }

/-- The OrderItem records built by `handleCheckout`, one per cart entry in
order, with `price: parseFloat((item.product?.price || 0).toFixed(2))` and
the quantity copied from the line item.  `oiIds` supplies the generated
ids by loop position. -/
def checkoutOrderItems (orderId : String) (oiIds : ℕ → String)
    (items : List HydItem) : List OrderItemRec :=
  items.enum.map (fun p =>
    { id := oiIds p.1, orderId := orderId, productId := p.2.productId,
      quantity := p.2.quantity, price := round2 (priceOf p.2) })

/-- The store writes of one checkout, in program order: the Order, then one
OrderItem per cart entry, then one delete per cart entry. -/
def checkoutEvents (u orderId : String) (oiIds : ℕ → String)
    (address : String) (items : List HydItem) : List Event :=
  .createOrder (checkoutOrder u orderId address items) ::
    ((checkoutOrderItems orderId oiIds items).map .createOrderItem ++
      items.map (fun i => .deleteCartItem i.id))

/-- Checkout Orchestrator, `handleCheckout` in CheckoutPage.tsx: bail out
on a blank shipping address; otherwise issue the writes of
`checkoutEvents` one after another (each `await`ed).  `fails k` says
whether the k-th write throws; the first throw aborts the sequence in the
`catch` branch with no rollback, leaving exactly the writes before it
applied. -/
def handleCheckout (db : DB) (fails : ℕ → Bool) (u orderId : String)
    (oiIds : ℕ → String) (address : String) (items : List HydItem) :
    CheckoutResult × DB :=
  if trimStr address = "" then (.missingAddress, db)
  else
    let events := checkoutEvents u orderId oiIds address items
    match (List.range events.length).find? fails with
    | none => (.success, applyEvents db events)
    | some k => (.checkoutFailed, applyEvents db (events.take k))

/-- CheckoutPage's load redirects back to the cart page when the hydrated
cart comes back empty (`if (validItems.length === 0) ... onNavigate('cart')`). -/
def checkoutPageRedirects (db : DB) (oracle : AggOracle) (u : String) : Bool :=
  match (loadCartItems db oracle u).1 with
  | .ok out => out.isEmpty
  | .error _ => false

/-- The cart-item ids removed by a write sequence. -/
def deletions (es : List Event) : List String :=
  es.filterMap (fun e =>
    match e with
    | .deleteCartItem i => some i
    | _ => none)

/-- The Order records created by a write sequence. -/
def createdOrders (es : List Event) : List OrderRec :=
  es.filterMap (fun e =>
    match e with
    | .createOrder o => some o
    | _ => none)

/-- The OrderItem records created by a write sequence. -/
def createdOrderItems (es : List Event) : List OrderItemRec :=
  es.filterMap (fun e =>
    match e with
    | .createOrderItem oi => some oi
    | _ => none)

/-- Referential soundness of order items: every OrderItem in the store has
its parent Order in the store. -/
def ordersOK (db : DB) : Prop :=
  ∀ oi ∈ db.orderItems, ∃ o ∈ db.orders, o.id = oi.orderId

/-! ### Concrete fixtures used to instantiate the general theorems -/

/-- A catalog product priced at a whole number of cents ($10.00). -/
def prodA : Product :=
  { id := "p1", name := "Widget", description := "A widget", price := 10,
    imageUrl := "img1", category := "Electronics", stockQuantity := 5 }

/-- A second catalog product ($5.50). -/
def prodB : Product :=
  { id := "p2", name := "Gadget", description := "A gadget", price := 11/2,
    imageUrl := "img2", category := "Sports", stockQuantity := 3 }

/-- A product whose decimal price has sub-cent precision ($0.004): the data
model only requires a non-negative decimal. -/
def prodTiny : Product :=
  { id := "p3", name := "Micro", description := "A micro part", price := 1/250,
    imageUrl := "img3", category := "Electronics", stockQuantity := 9 }

/-- An aggregation oracle on which every store call succeeds. -/
def noFailAgg : AggOracle := { initialFetchFails := false, productLookupFails := fun _ => false }

/-- An aggregation oracle whose initial line-item fetch fails. -/
def initFailAgg : AggOracle := { initialFetchFails := true, productLookupFails := fun _ => false }

/-- An aggregation oracle on which only the product lookup issued for cart
item "c1" fails. -/
def lookupFailAgg : AggOracle := { initialFetchFails := false, productLookupFails := fun s => s == "c1" }

/-- A checkout failure oracle on which every write succeeds. -/
def noFail : ℕ → Bool := fun _ => false

/-- A checkout failure oracle on which the very first write (the Order
creation) fails. -/
def failAt0 : ℕ → Bool := fun k => k == 0

/-- Order-item id generator used by concrete checkout runs. -/
def oiIdsFix : ℕ → String := fun k => String.append "oi" (toString k)

/-- A store with two products and a two-line cart for user "u1". -/
def dbTwo : DB :=
  ⟨[prodA, prodB], [⟨"c1", "u1", "p1", 1⟩, ⟨"c2", "u1", "p2", 1⟩], [], []⟩

/-- A store whose single cart line item references a product that no longer
exists. -/
def dbGhost : DB := ⟨[], [⟨"c9", "u1", "ghost", 3⟩], [], []⟩

/-- A store with one valid cart line and one dangling cart line. -/
def dbMixed : DB :=
  ⟨[prodA], [⟨"c1", "u1", "p1", 2⟩, ⟨"c9", "u1", "ghost", 3⟩], [], []⟩

/-! ### Helper lemmas -/

lemma foldl_add_sum {α M : Type} [AddCommMonoid M] (f : α → M) :
    ∀ (l : List α) (a : M), l.foldl (fun s x => s + f x) a = a + (l.map f).sum
  | [], a => by simp
  | x :: xs, a => by
    simp only [List.foldl_cons, List.map_cons, List.sum_cons,
      foldl_add_sum f xs (a + f x), add_assoc]

lemma calculateTotal_eq (items : List HydItem) :
    calculateTotal items = (items.map (fun i => priceOf i * (i.quantity : ℚ))).sum := by
  simpa using foldl_add_sum (fun i => priceOf i * (i.quantity : ℚ)) items 0

lemma loadCartItemCount_eq (db : DB) (u : String) :
    loadCartItemCount db u = ((listWhereUser db u).map CartItem.quantity).sum := by
  simpa using foldl_add_sum CartItem.quantity (listWhereUser db u) 0

lemma cent_round2 (k : ℤ) : round2 ((k : ℚ) / 100) = (k : ℚ) / 100 := by
  rw [round2]
  have h : (k : ℚ) / 100 * 100 = (k : ℚ) := by field_simp
  rw [h, Int.floor_int_add]
  norm_num

lemma round2_self_iff (q : ℚ) : round2 q = q ↔ ∃ k : ℤ, q = (k : ℚ) / 100 := by
  constructor
  · intro h
    exact ⟨⌊q * 100 + 1 / 2⌋, h.symm⟩
  · rintro ⟨k, rfl⟩
    exact cent_round2 k

lemma cent_sum (l : List ℚ) (h : ∀ q ∈ l, ∃ k : ℤ, q = (k : ℚ) / 100) :
    ∃ k : ℤ, l.sum = (k : ℚ) / 100 := by
  induction l with
  | nil => exact ⟨0, by simp⟩
  | cons x xs ih =>
    obtain ⟨k, hk⟩ := h x (by simp)
    obtain ⟨m, hm⟩ := ih (fun q hq => h q (by simp [hq]))
    exact ⟨k + m, by simp [hk, hm]; ring⟩

lemma cent_mul_int (p : ℚ) (z : ℤ) (h : ∃ k : ℤ, p = (k : ℚ) / 100) :
    ∃ m : ℤ, p * (z : ℚ) = (m : ℚ) / 100 := by
  obtain ⟨k, rfl⟩ := h
  exact ⟨k * z, by push_cast; ring⟩

lemma cartItems_applyEvents : ∀ (es : List Event) (db : DB),
    (applyEvents db es).cartItems
      = db.cartItems.filter (fun c => !((deletions es).contains c.id))
  | [], db => by simp [applyEvents, deletions]
  | .createOrder o :: es, db => by
    simpa [applyEvents, applyEvent, deletions] using
      cartItems_applyEvents es { db with orders := db.orders ++ [o] }
  | .createOrderItem oi :: es, db => by
    simpa [applyEvents, applyEvent, deletions] using
      cartItems_applyEvents es { db with orderItems := db.orderItems ++ [oi] }
  | .deleteCartItem i :: es, db => by
    have h := cartItems_applyEvents es
      { db with cartItems := db.cartItems.filter (fun c => c.id != i) }
    have hd : deletions (Event.deleteCartItem i :: es) = i :: deletions es := by
      simp [deletions]
    simp only [applyEvents, List.foldl_cons, applyEvent] at h ⊢
    rw [h, List.filter_filter, hd]
    refine List.filter_congr ?_
    intro c _
    simp only [List.contains_cons, Bool.not_or]
    rw [Bool.and_comm]
    rfl

lemma orders_applyEvents : ∀ (es : List Event) (db : DB),
    (applyEvents db es).orders = db.orders ++ createdOrders es
  | [], db => by simp [applyEvents, createdOrders]
  | .createOrder o :: es, db => by
    have h := orders_applyEvents es { db with orders := db.orders ++ [o] }
    simp only [applyEvents, List.foldl_cons, applyEvent] at h ⊢
    simp [h, createdOrders]
  | .createOrderItem oi :: es, db => by
    simpa [applyEvents, applyEvent, createdOrders] using
      orders_applyEvents es { db with orderItems := db.orderItems ++ [oi] }
  | .deleteCartItem i :: es, db => by
    simpa [applyEvents, applyEvent, createdOrders] using
      orders_applyEvents es
        { db with cartItems := db.cartItems.filter (fun c => c.id != i) }

lemma orderItems_applyEvents : ∀ (es : List Event) (db : DB),
    (applyEvents db es).orderItems = db.orderItems ++ createdOrderItems es
  | [], db => by simp [applyEvents, createdOrderItems]
  | .createOrder o :: es, db => by
    simpa [applyEvents, applyEvent, createdOrderItems] using
      orderItems_applyEvents es { db with orders := db.orders ++ [o] }
  | .createOrderItem oi :: es, db => by
    have h := orderItems_applyEvents es { db with orderItems := db.orderItems ++ [oi] }
    simp only [applyEvents, List.foldl_cons, applyEvent] at h ⊢
    simp [h, createdOrderItems]
  | .deleteCartItem i :: es, db => by
    simpa [applyEvents, applyEvent, createdOrderItems] using
      orderItems_applyEvents es
        { db with cartItems := db.cartItems.filter (fun c => c.id != i) }

lemma deletions_append (a b : List Event) :
    deletions (a ++ b) = deletions a ++ deletions b := by
  simp [deletions]

lemma deletions_map_createOrderItem (l : List OrderItemRec) :
    deletions (l.map .createOrderItem) = [] := by
  induction l with
  | nil => simp [deletions]
  | cons x xs ih => simpa [deletions] using ih

lemma deletions_map_delete (l : List HydItem) :
    deletions (l.map (fun i => .deleteCartItem i.id)) = l.map HydItem.id := by
  induction l with
  | nil => simp [deletions]
  | cons x xs ih => simpa [deletions] using ih

lemma deletions_createOrder_cons (o : OrderRec) (es : List Event) :
    deletions (.createOrder o :: es) = deletions es := by
  simp [deletions]

lemma deletions_checkoutEvents (u orderId : String) (oiIds : ℕ → String)
    (address : String) (items : List HydItem) :
    deletions (checkoutEvents u orderId oiIds address items) = items.map HydItem.id := by
  rw [checkoutEvents, deletions_createOrder_cons, deletions_append,
    deletions_map_createOrderItem, deletions_map_delete, List.nil_append]

lemma createdOrders_map_createOrderItem (l : List OrderItemRec) :
    createdOrders (l.map .createOrderItem) = [] := by
  induction l with
  | nil => simp [createdOrders]
  | cons x xs ih => simpa [createdOrders] using ih

lemma createdOrders_map_delete (l : List HydItem) :
    createdOrders (l.map (fun i => .deleteCartItem i.id)) = [] := by
  induction l with
  | nil => simp [createdOrders]
  | cons x xs ih => simpa [createdOrders] using ih

lemma createdOrders_append (a b : List Event) :
    createdOrders (a ++ b) = createdOrders a ++ createdOrders b := by
  simp [createdOrders]

lemma createdOrders_createOrder_cons (o : OrderRec) (es : List Event) :
    createdOrders (.createOrder o :: es) = o :: createdOrders es := by
  simp [createdOrders]

lemma createdOrders_checkoutEvents (u orderId : String) (oiIds : ℕ → String)
    (address : String) (items : List HydItem) :
    createdOrders (checkoutEvents u orderId oiIds address items)
      = [checkoutOrder u orderId address items] := by
  rw [checkoutEvents, createdOrders_createOrder_cons, createdOrders_append,
    createdOrders_map_createOrderItem, createdOrders_map_delete]
  simp

lemma createdOrderItems_map_createOrderItem (l : List OrderItemRec) :
    createdOrderItems (l.map .createOrderItem) = l := by
  induction l with
  | nil => simp [createdOrderItems]
  | cons x xs ih => simpa [createdOrderItems] using ih

lemma createdOrderItems_map_delete (l : List HydItem) :
    createdOrderItems (l.map (fun i => .deleteCartItem i.id)) = [] := by
  induction l with
  | nil => simp [createdOrderItems]
  | cons x xs ih => simpa [createdOrderItems] using ih

lemma createdOrderItems_append (a b : List Event) :
    createdOrderItems (a ++ b) = createdOrderItems a ++ createdOrderItems b := by
  simp [createdOrderItems]

lemma createdOrderItems_createOrder_cons (o : OrderRec) (es : List Event) :
    createdOrderItems (.createOrder o :: es) = createdOrderItems es := by
  simp [createdOrderItems]

lemma createdOrderItems_checkoutEvents (u orderId : String) (oiIds : ℕ → String)
    (address : String) (items : List HydItem) :
    createdOrderItems (checkoutEvents u orderId oiIds address items)
      = checkoutOrderItems orderId oiIds items := by
  rw [checkoutEvents, createdOrderItems_createOrder_cons, createdOrderItems_append,
    createdOrderItems_map_createOrderItem, createdOrderItems_map_delete,
    List.append_nil]

lemma checkoutOrderItems_length (orderId : String) (oiIds : ℕ → String)
    (items : List HydItem) :
    (checkoutOrderItems orderId oiIds items).length = items.length := by
  simp [checkoutOrderItems]

lemma find?_range_eq_none {n : ℕ} {p : ℕ → Bool} :
    (List.range n).find? p = none ↔ ∀ k < n, p k = false := by
  rw [List.find?_eq_none]
  constructor
  · intro h k hk
    simpa using h k (List.mem_range.mpr hk)
  · intro h k hk
    simp [h k (List.mem_range.mp hk)]

lemma createOrderItem_mem_of_mem (es : List Event) (oi : OrderItemRec)
    (h : oi ∈ createdOrderItems es) : Event.createOrderItem oi ∈ es := by
  rw [createdOrderItems] at h
  obtain ⟨e, he, hm⟩ := List.mem_filterMap.mp h
  cases e with
  | createOrder o => simp at hm
  | createOrderItem oi2 =>
    simp only [Option.some.injEq] at hm
    rw [← hm]
    exact he
  | deleteCartItem i => simp at hm

lemma orderId_of_mem_checkoutOrderItems (orderId : String) (oiIds : ℕ → String)
    (items : List HydItem) (oi : OrderItemRec)
    (h : oi ∈ checkoutOrderItems orderId oiIds items) : oi.orderId = orderId := by
  rw [checkoutOrderItems] at h
  obtain ⟨p, hp, rfl⟩ := List.mem_map.mp h
  rfl

lemma orderId_of_createOrderItem_mem_checkoutEvents (u orderId : String)
    (oiIds : ℕ → String) (address : String) (items : List HydItem) (oi : OrderItemRec)
    (h : Event.createOrderItem oi ∈ checkoutEvents u orderId oiIds address items) :
    oi.orderId = orderId := by
  rw [checkoutEvents] at h
  rcases List.mem_cons.mp h with h | h
  · simp at h
  rcases List.mem_append.mp h with h | h
  · obtain ⟨oi2, hoi2, heq⟩ := List.mem_map.mp h
    simp only [Event.createOrderItem.injEq] at heq
    rw [← heq]
    exact orderId_of_mem_checkoutOrderItems orderId oiIds items oi2 hoi2
  · obtain ⟨i, hi, heq⟩ := List.mem_map.mp h
    simp at heq

lemma round2_ten : round2 10 = 10 := by
  have h : (10 : ℚ) = ((1000 : ℤ) : ℚ) / 100 := by norm_num
  rw [h]
  exact cent_round2 1000

/-! ### The claims -/

/-- Claim C9: for every line item id and every quantity below 1 (zero or
negative), `updateQuantity` is a no-op: no store update is issued and both
the remote store and the local cart state are left unchanged. -/
theorem C9_setQuantity_below_one_noop (db : DB) (localCart : List HydItem)
    (itemId : String) (newQuantity : ℤ) (h : newQuantity < 1) :
    updateQuantity db localCart itemId newQuantity = (db, localCart) := by
  simp [updateQuantity, if_pos h]

/-- Witness for C9 at quantity 0 on a one-item cart. -/
theorem C9_setQuantity_below_one_noop_witness :
    (0 : ℤ) < 1 ∧
      updateQuantity ⟨[], [⟨"li1", "u1", "p1", 2⟩], [], []⟩
          [⟨"li1", "u1", "p1", 2, none⟩] "li1" 0
        = (⟨[], [⟨"li1", "u1", "p1", 2⟩], [], []⟩, [⟨"li1", "u1", "p1", 2, none⟩]) :=
  ⟨by decide,
    C9_setQuantity_below_one_noop ⟨[], [⟨"li1", "u1", "p1", 2⟩], [], []⟩
      [⟨"li1", "u1", "p1", 2, none⟩] "li1" 0 (by decide)⟩

/-- Claim C3: the Cart Aggregator's output never contains an entry whose
productId has no matching Product record; aggregation only reads, so the
store comes back unchanged and a dangling line item's record survives the
aggregation. -/
theorem C3_aggregator_filters_dangling (db : DB) (oracle : AggOracle) (u : String) :
    (loadCartItems db oracle u).2 = db
    ∧ (∀ c ∈ db.cartItems, c ∈ (loadCartItems db oracle u).2.cartItems)
    ∧ (∀ out, (loadCartItems db oracle u).1 = .ok out →
        ∀ e ∈ out, ∃ pr ∈ db.products, pr.id = e.productId) := by
  have hsnd : (loadCartItems db oracle u).2 = db := by
    unfold loadCartItems
    split
    · rfl
    · dsimp only
      split <;> rfl
  refine ⟨hsnd, fun c hc => by rw [hsnd]; exact hc, ?_⟩
  intro out hout e he
  by_cases h1 : oracle.initialFetchFails
  · simp [loadCartItems, h1] at hout
  by_cases h2 : (listWhereUser db u).any (fun i => oracle.productLookupFails i.id)
  · simp [loadCartItems, h1, h2] at hout
  simp only [loadCartItems, h1, if_false, Bool.false_eq_true, h2, if_neg,
    Except.ok.injEq] at hout
  subst hout
  obtain ⟨hmem, hsome⟩ := List.mem_filter.mp he
  obtain ⟨c, hc, rfl⟩ := List.mem_map.mp hmem
  obtain ⟨pr, hpr⟩ := Option.isSome_iff_exists.mp hsome
  have hpr' : pr ∈ (db.products.filter (fun q => q.id == c.productId)).head? :=
    Option.mem_def.mpr hpr
  obtain ⟨hmem', hbeq⟩ := List.mem_filter.mp (List.mem_of_mem_head? hpr')
  exact ⟨pr, hmem', by simpa using hbeq⟩

/-- Witness for C3: a run over a store with one valid and one dangling cart
line returns the store unchanged and an output whose only entry has a
matching product. -/
theorem C3_aggregator_filters_dangling_witness :
    (loadCartItems dbMixed noFailAgg "u1").2 = dbMixed
    ∧ (∀ e ∈ [hydrateItem dbMixed ⟨"c1", "u1", "p1", 2⟩],
        ∃ pr ∈ dbMixed.products, pr.id = e.productId) :=
  ⟨(C3_aggregator_filters_dangling dbMixed noFailAgg "u1").1,
    fun e he =>
      (C3_aggregator_filters_dangling dbMixed noFailAgg "u1").2.2
        [hydrateItem dbMixed ⟨"c1", "u1", "p1", 2⟩] rfl e he⟩

/-- Counterexample to C4 as stated: on a store where both cart lines have
live products, the failure of the single product lookup issued for item
"c1" makes the whole aggregation fail with `StoreUnavailable` — the
remaining entry (whose lookup does not fail and whose product exists) is
not produced, so a failed per-item lookup IS a fatal aggregation error. -/
theorem C4_counterexample :
    (loadCartItems dbTwo lookupFailAgg "u1").1 = .error .StoreUnavailable
    ∧ lookupFailAgg.initialFetchFails = false
    ∧ lookupFailAgg.productLookupFails "c2" = false
    ∧ productById dbTwo "p2" = some prodB :=
  ⟨rfl, rfl, rfl, rfl⟩

/-- Claim C4 (amended): if the initial line-item fetch fails the whole
aggregation fails with `StoreUnavailable`; if any per-item product lookup
fails, the whole aggregation also fails with `StoreUnavailable` (the
`Promise.all` rejects into the same catch); only when every issued call
succeeds is the hydrated output produced, with entries whose product no
longer exists dropped. -/
theorem C4_asymmetric_failure_amended (db : DB) (oracle : AggOracle) (u : String) :
    (oracle.initialFetchFails = true →
      (loadCartItems db oracle u).1 = .error .StoreUnavailable)
    ∧ ((listWhereUser db u).any (fun i => oracle.productLookupFails i.id) = true →
        (loadCartItems db oracle u).1 = .error .StoreUnavailable)
    ∧ (oracle.initialFetchFails = false →
        (listWhereUser db u).any (fun i => oracle.productLookupFails i.id) = false →
        (loadCartItems db oracle u).1
          = .ok (((listWhereUser db u).map (hydrateItem db)).filter
              (fun i => i.product.isSome))) := by
  refine ⟨fun h1 => by simp [loadCartItems, h1], fun h2 => ?_, fun h1 h2 => ?_⟩
  · by_cases h1 : oracle.initialFetchFails
    · simp [loadCartItems, h1]
    · simp [loadCartItems, h1, h2]
  · simp [loadCartItems, h1, h2]

/-- Witness for C4 (amended): the three failure regimes at concrete
stores and oracles. -/
theorem C4_asymmetric_failure_amended_witness :
    (loadCartItems dbTwo initFailAgg "u1").1 = .error .StoreUnavailable
    ∧ (loadCartItems dbTwo lookupFailAgg "u1").1 = .error .StoreUnavailable
    ∧ (loadCartItems dbTwo noFailAgg "u1").1
      = .ok (((listWhereUser dbTwo "u1").map (hydrateItem dbTwo)).filter
          (fun i => i.product.isSome)) :=
  ⟨(C4_asymmetric_failure_amended dbTwo initFailAgg "u1").1 rfl,
    (C4_asymmetric_failure_amended dbTwo lookupFailAgg "u1").2.1 rfl,
    (C4_asymmetric_failure_amended dbTwo noFailAgg "u1").2.2 rfl rfl⟩

/-- Counterexample to C8 as stated: a cart line whose product was deleted
is absent from the Cart Aggregator's output (so the cart total excludes
it), yet the header badge's `loadCartItemCount` still counts its quantity
3 — the claim that the badge count excludes the dangling line's
contribution is false. -/
theorem C8_counterexample :
    (loadCartItems dbGhost noFailAgg "u1").1 = .ok []
    ∧ loadCartItemCount dbGhost "u1" = 3
    ∧ (3 : ℤ) ≠ 0 :=
  ⟨rfl, rfl, by decide⟩

/-- Claim C8 (amended): removing a dangling cart line (one whose productId
matches no product) from the store changes neither the Cart Aggregator's
output nor, consequently, the cart total or the cart page's item count
computed from that output — but the header badge's `loadCartItemCount`
drops by exactly that line's quantity, because it sums raw line items
without hydration. -/
theorem C8_dangling_excluded_amended (db : DB) (oracle : AggOracle) (u : String)
    (l1 l2 : List CartItem) (c : CartItem)
    (hsplit : db.cartItems = l1 ++ c :: l2)
    (huser : c.userId = u)
    (hdangling : ∀ pr ∈ db.products, pr.id ≠ c.productId)
    (ho1 : oracle.initialFetchFails = false)
    (ho2 : ∀ s, oracle.productLookupFails s = false) :
    (loadCartItems db oracle u).1
      = (loadCartItems { db with cartItems := l1 ++ l2 } oracle u).1
    ∧ (∀ out out2, (loadCartItems db oracle u).1 = .ok out →
        (loadCartItems { db with cartItems := l1 ++ l2 } oracle u).1 = .ok out2 →
        calculateTotal out = calculateTotal out2 ∧ getTotalItems out = getTotalItems out2)
    ∧ loadCartItemCount db u
      = loadCartItemCount { db with cartItems := l1 ++ l2 } u + c.quantity := by
  have hany : ∀ l : List CartItem, (l.any (fun i => oracle.productLookupFails i.id)) = false := by
    intro l
    induction l with
    | nil => rfl
    | cons x xs ih => simp [ho2, ih]
  have hprodfil : db.products.filter (fun q => q.id == c.productId) = [] := by
    rw [List.filter_eq_nil_iff]
    intro pr hpr
    simpa using hdangling pr hpr
  have hcdrop : ((hydrateItem db c).product).isSome = false := by
    simp [hydrateItem, productById, hprodfil]
  have hfirst : (loadCartItems db oracle u).1
      = (loadCartItems { db with cartItems := l1 ++ l2 } oracle u).1 := by
    simp only [loadCartItems, ho1, Bool.false_eq_true, if_false, hany]
    have hlw1 : listWhereUser db u
        = l1.filter (fun i => i.userId == u) ++ c :: l2.filter (fun i => i.userId == u) := by
      rw [listWhereUser, hsplit, List.filter_append]
      simp [huser]
    have hlw2 : listWhereUser { db with cartItems := l1 ++ l2 } u
        = l1.filter (fun i => i.userId == u) ++ l2.filter (fun i => i.userId == u) := by
      rw [listWhereUser]
      show (l1 ++ l2).filter _ = _
      rw [List.filter_append]
    have hhyd : hydrateItem { db with cartItems := l1 ++ l2 } = hydrateItem db := rfl
    rw [hlw1, hlw2, hhyd]
    show Except.ok _ = Except.ok _
    congr 1
    simp only [List.map_append, List.map_cons, List.filter_append, List.filter_cons]
    rw [hcdrop]
    simp
  refine ⟨hfirst, ?_, ?_⟩
  · intro out out2 h1 h2
    rw [hfirst, h2, Except.ok.injEq] at h1
    rw [h1]
    exact ⟨rfl, rfl⟩
  · rw [loadCartItemCount_eq, loadCartItemCount_eq]
    have hlw1 : listWhereUser db u
        = l1.filter (fun i => i.userId == u) ++ c :: l2.filter (fun i => i.userId == u) := by
      rw [listWhereUser, hsplit, List.filter_append]
      simp [huser]
    have hlw2 : listWhereUser { db with cartItems := l1 ++ l2 } u
        = l1.filter (fun i => i.userId == u) ++ l2.filter (fun i => i.userId == u) := by
      rw [listWhereUser]
      show (l1 ++ l2).filter _ = _
      rw [List.filter_append]
    rw [hlw1, hlw2]
    simp only [List.map_append, List.map_cons, List.sum_append, List.sum_cons]
    ring

/-- Witness for C8 (amended): in the mixed store, deleting the dangling
line "c9" does not change the aggregation but lowers the badge count by
its quantity 3. -/
theorem C8_dangling_excluded_amended_witness :
    (loadCartItems dbMixed noFailAgg "u1").1
      = (loadCartItems { dbMixed with cartItems := [⟨"c1", "u1", "p1", 2⟩] ++ [] } noFailAgg "u1").1
    ∧ loadCartItemCount dbMixed "u1"
      = loadCartItemCount { dbMixed with cartItems := [⟨"c1", "u1", "p1", 2⟩] ++ [] } "u1"
        + (⟨"c9", "u1", "ghost", 3⟩ : CartItem).quantity :=
  ⟨(C8_dangling_excluded_amended dbMixed noFailAgg "u1"
      [⟨"c1", "u1", "p1", 2⟩] [] ⟨"c9", "u1", "ghost", 3⟩
      rfl rfl (by decide) rfl (fun _ => rfl)).1,
    (C8_dangling_excluded_amended dbMixed noFailAgg "u1"
      [⟨"c1", "u1", "p1", 2⟩] [] ⟨"c9", "u1", "ghost", 3⟩
      rfl rfl (by decide) rfl (fun _ => rfl)).2.2⟩

/-- Claim C2: starting from a cart with no line item for `(u, p)` and with
the generated id fresh, `addToCart u p a` followed by `addToCart u p b`
leaves exactly one line item for the pair `(u, p)`, carrying quantity
`a + b`; the first add creates one new line item and the second updates it
in place, creating none. -/
theorem C2_addToCart_merges (db : DB) (f1 f2 u p : String) (a b : ℤ)
    (hnone : ∀ i ∈ db.cartItems, ¬(i.userId = u ∧ i.productId = p))
    (hfresh : ∀ i ∈ db.cartItems, i.id ≠ f1)
    (ha : 0 < a) (hb : 0 < b) :
    ((addToCart (addToCart db f1 u p a) f2 u p b).cartItems.filter
        (fun i => i.userId == u && i.productId == p))
      = [{ id := f1, userId := u, productId := p, quantity := a + b }]
    ∧ (addToCart (addToCart db f1 u p a) f2 u p b).cartItems.length
      = db.cartItems.length + 1 := by
  have hfil : db.cartItems.filter (fun i => i.userId == u && i.productId == p) = [] := by
    rw [List.filter_eq_nil_iff]
    intro i hi
    simpa using hnone i hi
  have h1 : addToCart db f1 u p a
      = { db with cartItems :=
            db.cartItems ++ [{ id := f1, userId := u, productId := p, quantity := a }] } := by
    rw [addToCart, hfil]
    rfl
  set newItem : CartItem := { id := f1, userId := u, productId := p, quantity := a }
    with hni
  have hfil2 : (db.cartItems ++ [newItem]).filter
      (fun i => i.userId == u && i.productId == p) = [newItem] := by
    rw [List.filter_append, hfil]
    simp [hni]
  have h2 : addToCart (addToCart db f1 u p a) f2 u p b
      = { db with cartItems :=
            db.cartItems ++ [{ id := f1, userId := u, productId := p, quantity := a + b }] } := by
    rw [h1, addToCart]
    show (match ((db.cartItems ++ [newItem]).filter
        (fun i => i.userId == u && i.productId == p)).head? with
      | some existing => _
      | none => _) = _
    rw [hfil2]
    simp only [List.head?_cons, List.map_append]
    have hmap : db.cartItems.map (fun i =>
        if i.id == newItem.id then { i with quantity := newItem.quantity + b } else i)
        = db.cartItems := by
      rw [List.map_congr_left (g := id) ?_, List.map_id]
      intro i hi
      have : (i.id == newItem.id) = false := by
        simpa [hni] using hfresh i hi
      simp [this]
    rw [hmap]
    simp [hni, add_comm]
  refine ⟨?_, ?_⟩
  · rw [h2]
    show (db.cartItems ++ _).filter _ = _
    rw [List.filter_append, hfil]
    simp
  · rw [h2]
    show (db.cartItems ++ _).length = _
    simp

/-- Witness for C2: `addToCart(u, p, 3)` then `addToCart(u, p, 2)` from an
empty cart yields one line item of quantity 5. -/
theorem C2_addToCart_merges_witness :
    ((addToCart (addToCart ⟨[], [], [], []⟩ "c1" "u1" "p1" 3) "c2" "u1" "p1" 2).cartItems.filter
        (fun i => i.userId == "u1" && i.productId == "p1"))
      = [{ id := "c1", userId := "u1", productId := "p1", quantity := 5 }]
    ∧ (addToCart (addToCart ⟨[], [], [], []⟩ "c1" "u1" "p1" 3) "c2" "u1" "p1" 2).cartItems.length
      = ([] : List CartItem).length + 1 :=
  C2_addToCart_merges ⟨[], [], [], []⟩ "c1" "c2" "u1" "p1" 3 2
    (by simp) (by simp) (by decide) (by decide)

/-- Claim C10: order placement itself never checks cart non-emptiness:
invoked with an empty hydrated cart and a non-blank shipping address (and a
succeeding Order write), `handleCheckout` creates an Order with
`totalAmount` 0 and status "pending", creates no OrderItems, touches no
cart line, and reports success; the non-empty-cart precondition lives only
in the page-load redirect. -/
theorem C10_empty_cart_checkout (db : DB) (fails : ℕ → Bool) (u orderId : String)
    (oiIds : ℕ → String) (address : String)
    (haddr : trimStr address ≠ "") (hf : fails 0 = false) :
    handleCheckout db fails u orderId oiIds address []
      = (.success, { db with orders := db.orders ++ [checkoutOrder u orderId address []] })
    ∧ (checkoutOrder u orderId address []).totalAmount = 0
    ∧ (checkoutOrder u orderId address []).status = "pending"
    ∧ checkoutOrderItems orderId oiIds [] = []
    ∧ (∀ oracle, (loadCartItems db oracle u).1 = .ok [] →
        checkoutPageRedirects db oracle u = true) := by
  have hev : checkoutEvents u orderId oiIds address []
      = [.createOrder (checkoutOrder u orderId address [])] := by
    simp [checkoutEvents, checkoutOrderItems]
  refine ⟨?_, ?_, rfl, rfl, ?_⟩
  · rw [handleCheckout, if_neg haddr, hev]
    have hr : (List.range [Event.createOrder (checkoutOrder u orderId address [])].length).find?
        fails = none := by
      rw [show List.range [Event.createOrder (checkoutOrder u orderId address [])].length
          = [0] from rfl]
      rw [List.find?_cons, hf]
      rfl
    dsimp only
    rw [hr]
    rfl
  · show round2 (calculateTotal []) = 0
    norm_num [round2, calculateTotal]
  · intro oracle h
    rw [checkoutPageRedirects, h]
    rfl

/-- Witness for C10: an empty-cart checkout against the empty store with
address "addr" and no write failures. -/
theorem C10_empty_cart_checkout_witness :
    trimStr "addr" ≠ ""
    ∧ noFail 0 = false
    ∧ handleCheckout ⟨[], [], [], []⟩ noFail "u1" "o1" oiIdsFix "addr" []
      = (.success, ⟨[], [], [checkoutOrder "u1" "o1" "addr" []], []⟩) :=
  ⟨by decide, rfl,
    ((C10_empty_cart_checkout ⟨[], [], [], []⟩ noFail "u1" "o1" oiIdsFix "addr"
        (by decide) rfl).1)⟩

/-- Claim C5: when the k-th checkout write is the first to fail, the
orchestrator stops there, reports `checkoutFailed`, and the resulting
store is exactly the initial store with only the writes before the failed
one applied: the records they created remain (no rollback) and the cart
lines whose deletes did not complete are still present. -/
theorem C5_checkout_failure_no_rollback (db : DB) (fails : ℕ → Bool)
    (u orderId : String) (oiIds : ℕ → String) (address : String)
    (items : List HydItem) (k : ℕ)
    (haddr : trimStr address ≠ "")
    (hfail : (List.range (checkoutEvents u orderId oiIds address items).length).find? fails
      = some k) :
    handleCheckout db fails u orderId oiIds address items
      = (.checkoutFailed,
          applyEvents db ((checkoutEvents u orderId oiIds address items).take k))
    ∧ (handleCheckout db fails u orderId oiIds address items).2.cartItems
      = db.cartItems.filter (fun c =>
          !((deletions ((checkoutEvents u orderId oiIds address items).take k)).contains c.id))
    ∧ (handleCheckout db fails u orderId oiIds address items).2.orders
      = db.orders ++ createdOrders ((checkoutEvents u orderId oiIds address items).take k)
    ∧ (handleCheckout db fails u orderId oiIds address items).2.orderItems
      = db.orderItems
          ++ createdOrderItems ((checkoutEvents u orderId oiIds address items).take k) := by
  have h1 : handleCheckout db fails u orderId oiIds address items
      = (.checkoutFailed,
          applyEvents db ((checkoutEvents u orderId oiIds address items).take k)) := by
    rw [handleCheckout, if_neg haddr]
    dsimp only
    rw [hfail]
  refine ⟨h1, ?_, ?_, ?_⟩ <;> rw [h1]
  · exact cartItems_applyEvents _ _
  · exact orders_applyEvents _ _
  · exact orderItems_applyEvents _ _

/-- Witness for C5: with the very first write (the Order creation) failing,
checkout reports failure and leaves the store untouched. -/
theorem C5_checkout_failure_no_rollback_witness :
    trimStr "addr" ≠ ""
    ∧ handleCheckout ⟨[prodA], [⟨"c1", "u1", "p1", 2⟩], [], []⟩ failAt0 "u1" "o1" oiIdsFix
        "addr" [⟨"c1", "u1", "p1", 2, some prodA⟩]
      = (.checkoutFailed,
          applyEvents ⟨[prodA], [⟨"c1", "u1", "p1", 2⟩], [], []⟩
            ((checkoutEvents "u1" "o1" oiIdsFix "addr"
              [⟨"c1", "u1", "p1", 2, some prodA⟩]).take 0)) :=
  ⟨by decide,
    (C5_checkout_failure_no_rollback ⟨[prodA], [⟨"c1", "u1", "p1", 2⟩], [], []⟩ failAt0
      "u1" "o1" oiIdsFix "addr" [⟨"c1", "u1", "p1", 2, some prodA⟩] 0
      (by decide) rfl).1⟩

/-- Claim C6: checkout writes are strictly ordered.  Starting from a store
where every OrderItem has its parent Order, every state reachable after a
prefix of the checkout's write sequence still has that property (the Order
is created before any of its OrderItems); no cart line is deleted before
all OrderItems exist (for prefixes up to the last OrderItem creation, the
cart is untouched); and success is reported only when every write — all
OrderItem creations and all cart-line deletions — has completed. -/
theorem C6_checkout_write_ordering (db : DB) (fails : ℕ → Bool) (u orderId : String)
    (oiIds : ℕ → String) (address : String) (items : List HydItem)
    (hdb : ordersOK db) :
    (∀ n, ordersOK (applyEvents db ((checkoutEvents u orderId oiIds address items).take n)))
    ∧ (∀ n, n ≤ 1 + (checkoutOrderItems orderId oiIds items).length →
        (applyEvents db ((checkoutEvents u orderId oiIds address items).take n)).cartItems
          = db.cartItems)
    ∧ (∀ db2, handleCheckout db fails u orderId oiIds address items = (.success, db2) →
        db2 = applyEvents db (checkoutEvents u orderId oiIds address items)
        ∧ ∀ k < (checkoutEvents u orderId oiIds address items).length, fails k = false) := by
  refine ⟨?_, ?_, ?_⟩
  · intro n oi hoi
    rw [orderItems_applyEvents] at hoi
    rw [orders_applyEvents]
    rcases List.mem_append.mp hoi with h | h
    · obtain ⟨o, ho, hid⟩ := hdb oi h
      exact ⟨o, List.mem_append.mpr (Or.inl ho), hid⟩
    · have hid : oi.orderId = orderId :=
        orderId_of_createOrderItem_mem_checkoutEvents u orderId oiIds address items oi
          (List.take_subset n _ (createOrderItem_mem_of_mem _ oi h))
      cases n with
      | zero => simp [createdOrderItems] at h
      | succ m =>
        refine ⟨checkoutOrder u orderId address items, ?_, by rw [hid]; rfl⟩
        refine List.mem_append.mpr (Or.inr ?_)
        rw [checkoutEvents, List.take_succ_cons, createdOrders_createOrder_cons]
        exact List.mem_cons_self _ _
  · intro n hn
    rw [cartItems_applyEvents]
    have hdel : deletions ((checkoutEvents u orderId oiIds address items).take n) = [] := by
      cases n with
      | zero => rfl
      | succ m =>
        rw [checkoutEvents, List.take_succ_cons, deletions_createOrder_cons,
          List.take_append_of_le_length (by
            simp only [List.length_map, checkoutOrderItems_length] at hn ⊢
            omega),
          ← List.map_take, deletions_map_createOrderItem]
    rw [hdel]
    simp [List.filter_true]
  · intro db2 hsuc
    by_cases haddr : trimStr address = ""
    · rw [handleCheckout, if_pos haddr] at hsuc
      exact absurd (congrArg Prod.fst hsuc) (by simp)
    · rw [handleCheckout, if_neg haddr] at hsuc
      dsimp only at hsuc
      cases hfind : (List.range
          (checkoutEvents u orderId oiIds address items).length).find? fails with
      | none =>
        rw [hfind] at hsuc
        refine ⟨(Prod.mk.injEq _ _ _ _ ▸ hsuc).2.symm ▸ rfl, ?_⟩
        exact find?_range_eq_none.mp hfind
      | some k =>
        rw [hfind] at hsuc
        exact absurd (congrArg Prod.fst hsuc) (by simp)

/-- Witness for C6 in a one-item checkout: after the Order creation and the
single OrderItem creation (prefix length 2) the cart is untouched and the
parent-order invariant holds. -/
theorem C6_checkout_write_ordering_witness :
    (applyEvents ⟨[prodA], [⟨"c1", "u1", "p1", 2⟩], [], []⟩
        ((checkoutEvents "u1" "o1" oiIdsFix "addr"
          [⟨"c1", "u1", "p1", 2, some prodA⟩]).take 2)).cartItems
      = (⟨[prodA], [⟨"c1", "u1", "p1", 2⟩], [], []⟩ : DB).cartItems
    ∧ ordersOK (applyEvents ⟨[prodA], [⟨"c1", "u1", "p1", 2⟩], [], []⟩
        ((checkoutEvents "u1" "o1" oiIdsFix "addr"
          [⟨"c1", "u1", "p1", 2, some prodA⟩]).take 2)) :=
  ⟨(C6_checkout_write_ordering ⟨[prodA], [⟨"c1", "u1", "p1", 2⟩], [], []⟩ noFail
      "u1" "o1" oiIdsFix "addr" [⟨"c1", "u1", "p1", 2, some prodA⟩]
      (by simp [ordersOK])).2.1 2 (by simp [checkoutOrderItems]),
    (C6_checkout_write_ordering ⟨[prodA], [⟨"c1", "u1", "p1", 2⟩], [], []⟩ noFail
      "u1" "o1" oiIdsFix "addr" [⟨"c1", "u1", "p1", 2, some prodA⟩]
      (by simp [ordersOK])).1 2⟩

/-- Counterexample to C7 as stated: the OrderItem does not carry the
product's price itself but the price rounded to 2 decimals
(`parseFloat(price.toFixed(2))`).  For the sub-cent price $0.004 the
OrderItem created by checkout stores price 0, not 0.004. -/
theorem C7_counterexample :
    (checkoutOrderItems "o1" oiIdsFix [⟨"c3", "u1", "p3", 1, some prodTiny⟩]).map
        OrderItemRec.price = [0]
    ∧ prodTiny.price = 1 / 250
    ∧ (0 : ℚ) ≠ 1 / 250 := by
  refine ⟨?_, rfl, by norm_num⟩
  show [round2 (priceOf ⟨"c3", "u1", "p3", 1, some prodTiny⟩)] = [0]
  norm_num [priceOf, prodTiny, round2]

/-- Claim C7 (amended): after a checkout in which no write fails, the
store holds no cart line with an id from that checkout, the Order (whose
totalAmount is the rounded cart total) is appended, and exactly one
OrderItem per hydrated cart entry is appended, carrying the entry's
productId, its quantity, and the product's price rounded to 2 decimal
places as its snapshot (equal to the product's price whenever that price
has at most 2 decimals). -/
theorem C7_checkout_success_amended (db : DB) (fails : ℕ → Bool) (u orderId : String)
    (oiIds : ℕ → String) (address : String) (items : List HydItem)
    (haddr : trimStr address ≠ "")
    (hok : ∀ k < (checkoutEvents u orderId oiIds address items).length, fails k = false) :
    handleCheckout db fails u orderId oiIds address items
      = (.success, applyEvents db (checkoutEvents u orderId oiIds address items))
    ∧ (∀ c ∈ (handleCheckout db fails u orderId oiIds address items).2.cartItems,
        c.id ∉ items.map HydItem.id)
    ∧ (handleCheckout db fails u orderId oiIds address items).2.orders
      = db.orders ++ [checkoutOrder u orderId address items]
    ∧ (checkoutOrder u orderId address items).totalAmount = round2 (calculateTotal items)
    ∧ (handleCheckout db fails u orderId oiIds address items).2.orderItems
      = db.orderItems ++ checkoutOrderItems orderId oiIds items
    ∧ (checkoutOrderItems orderId oiIds items).length = items.length
    ∧ (∀ n : Fin items.length,
        ((checkoutOrderItems orderId oiIds items).get
            ⟨n.1, by rw [checkoutOrderItems_length]; exact n.2⟩).productId
          = (items.get n).productId
        ∧ ((checkoutOrderItems orderId oiIds items).get
            ⟨n.1, by rw [checkoutOrderItems_length]; exact n.2⟩).quantity
          = (items.get n).quantity
        ∧ ((checkoutOrderItems orderId oiIds items).get
            ⟨n.1, by rw [checkoutOrderItems_length]; exact n.2⟩).price
          = round2 (priceOf (items.get n))) := by
  have h1 : handleCheckout db fails u orderId oiIds address items
      = (.success, applyEvents db (checkoutEvents u orderId oiIds address items)) := by
    rw [handleCheckout, if_neg haddr]
    dsimp only
    rw [find?_range_eq_none.mpr hok]
  refine ⟨h1, ?_, ?_, rfl, ?_, checkoutOrderItems_length orderId oiIds items, ?_⟩
  · intro c hc
    rw [h1] at hc
    dsimp only at hc
    rw [cartItems_applyEvents, deletions_checkoutEvents] at hc
    obtain ⟨hmem, hpass⟩ := List.mem_filter.mp hc
    intro habs
    rw [Bool.not_eq_eq_eq_not, Bool.not_true] at hpass
    have hpass' : List.elem c.id (List.map HydItem.id items) = false := hpass
    exact absurd (List.elem_iff.mpr habs) (by rw [hpass']; simp)
  · rw [h1]
    dsimp only
    rw [orders_applyEvents, createdOrders_checkoutEvents]
  · rw [h1]
    dsimp only
    rw [orderItems_applyEvents, createdOrderItems_checkoutEvents]
  · intro n
    refine ⟨?_, ?_, ?_⟩ <;>
      simp [checkoutOrderItems, List.get_eq_getElem, List.getElem_map, List.getElem_enum]

/-- Witness for C7 (amended): a fully successful one-item checkout. -/
theorem C7_checkout_success_amended_witness :
    handleCheckout ⟨[prodA], [⟨"c1", "u1", "p1", 2⟩], [], []⟩ noFail "u1" "o1" oiIdsFix
        "addr" [⟨"c1", "u1", "p1", 2, some prodA⟩]
      = (.success, applyEvents ⟨[prodA], [⟨"c1", "u1", "p1", 2⟩], [], []⟩
          (checkoutEvents "u1" "o1" oiIdsFix "addr" [⟨"c1", "u1", "p1", 2, some prodA⟩])) :=
  (C7_checkout_success_amended ⟨[prodA], [⟨"c1", "u1", "p1", 2⟩], [], []⟩ noFail
    "u1" "o1" oiIdsFix "addr" [⟨"c1", "u1", "p1", 2, some prodA⟩]
    (by decide) (fun k _ => rfl)).1

/-- Counterexample to C1 as stated: with the single cart entry for the
sub-cent-priced product $0.004 at quantity 2, the Order's totalAmount is
the rounded raw total 0.01, but the created OrderItems' prices are rounded
individually, so the sum of `price × quantity` over them is 0 ≠ 0.01. -/
theorem C1_counterexample :
    (checkoutOrder "u1" "o1" "addr" [⟨"c3", "u1", "p3", 2, some prodTiny⟩]).totalAmount
      = 1 / 100
    ∧ ((checkoutOrderItems "o1" oiIdsFix [⟨"c3", "u1", "p3", 2, some prodTiny⟩]).map
        (fun oi => oi.price * (oi.quantity : ℚ))).sum = 0
    ∧ (1 / 100 : ℚ) ≠ 0 := by
  refine ⟨?_, ?_, by norm_num⟩
  · show round2 (calculateTotal [⟨"c3", "u1", "p3", 2, some prodTiny⟩]) = 1 / 100
    rw [calculateTotal_eq]
    norm_num [priceOf, prodTiny, round2]
  · norm_num [checkoutOrderItems, priceOf, prodTiny, round2]

/-- Claim C1 (amended): for every non-empty hydrated cart, the Order's
totalAmount is the raw cart total rounded to 2 decimal places, and —
provided every hydrated entry's product price is an exact multiple of 0.01
(so that the per-item rounding applied to OrderItem prices is the
identity) — it also equals the sum of `price × quantity` over the
OrderItems created by that checkout. -/
theorem C1_checkout_total_amended (u orderId address : String) (oiIds : ℕ → String)
    (items : List HydItem)
    (hne : items ≠ [])
    (hcent : ∀ i ∈ items, round2 (priceOf i) = priceOf i) :
    (checkoutOrder u orderId address items).totalAmount = round2 (calculateTotal items)
    ∧ (checkoutOrder u orderId address items).totalAmount
      = ((checkoutOrderItems orderId oiIds items).map
          (fun oi => oi.price * (oi.quantity : ℚ))).sum := by
  refine ⟨rfl, ?_⟩
  have hmap : (checkoutOrderItems orderId oiIds items).map
      (fun oi => oi.price * (oi.quantity : ℚ))
      = items.map (fun i => round2 (priceOf i) * (i.quantity : ℚ)) := by
    rw [checkoutOrderItems, List.map_map]
    rw [show ((fun oi : OrderItemRec => oi.price * (oi.quantity : ℚ)) ∘ fun p =>
        ({ id := oiIds p.1, orderId := orderId, productId := p.2.productId,
           quantity := p.2.quantity, price := round2 (priceOf p.2) } : OrderItemRec))
        = ((fun i => round2 (priceOf i) * (i.quantity : ℚ)) ∘ Prod.snd) from rfl]
    rw [← List.map_map, List.enum_map_snd]
  have hmap2 : items.map (fun i => round2 (priceOf i) * (i.quantity : ℚ))
      = items.map (fun i => priceOf i * (i.quantity : ℚ)) :=
    List.map_congr_left (fun i hi => by rw [hcent i hi])
  rw [hmap, hmap2]
  show round2 (calculateTotal items) = _
  rw [calculateTotal_eq]
  obtain ⟨k, hk⟩ := cent_sum (items.map (fun i => priceOf i * (i.quantity : ℚ)))
    (by
      intro q hq
      obtain ⟨i, hi, rfl⟩ := List.mem_map.mp hq
      exact cent_mul_int _ _ ((round2_self_iff _).mp (hcent i hi)))
  rw [hk]
  exact cent_round2 k

/-- Witness for C1 (amended): a one-entry cart for the $10.00 product at
quantity 2. -/
theorem C1_checkout_total_amended_witness :
    ([⟨"c1", "u1", "p1", 2, some prodA⟩] : List HydItem) ≠ []
    ∧ (checkoutOrder "u1" "o1" "addr" [⟨"c1", "u1", "p1", 2, some prodA⟩]).totalAmount
      = ((checkoutOrderItems "o1" oiIdsFix [⟨"c1", "u1", "p1", 2, some prodA⟩]).map
          (fun oi => oi.price * (oi.quantity : ℚ))).sum :=
  ⟨by simp,
    (C1_checkout_total_amended "u1" "o1" "addr" oiIdsFix
      [⟨"c1", "u1", "p1", 2, some prodA⟩] (by simp)
      (fun i hi => by
        rw [List.mem_singleton] at hi
        rw [hi]
        show round2 (priceOf ⟨"c1", "u1", "p1", 2, some prodA⟩)
          = priceOf ⟨"c1", "u1", "p1", 2, some prodA⟩
        simp [priceOf, prodA, round2_ten])).2⟩

end ShopEasy
